import Mathlib

/-!
# Verification of the aqua coordination kernel

A shallow embedding of the coordination kernel of the `aqua` repository
(`src/aqua/db.py`, `src/aqua/coordinator.py`, `src/aqua/models.py`) and
proofs of the specified properties.

The embedding works at the level of the SQLite tables: a database state is a
record of lists of rows (`agents`, `tasks`, `leader`, `messages`, `events`,
`file_locks`), and every Python method that issues SQL becomes a Lean
function from states to states.  Timestamps (stored as ISO-8601 UTC strings,
which compare chronologically) are modelled as integers; the current time
`datetime.utcnow()` becomes an explicit `now : Int` argument.  A SQL
`UPDATE ... WHERE pred` becomes a `List.map` that rewrites exactly the rows
satisfying `pred`, and the observed `cursor.rowcount` is the number of rows
satisfying `pred` beforehand.  `ORDER BY` is modelled by a stable insertion
sort (SQLite's scan order with the documented tie-breaking).

Fallible paths are modelled with `Except`.  In particular, `models.py`'s
`Task` dataclass declares no `depends_on` field and `Task.from_row` drops
that column, so `Database._dependencies_met` — whose first statement reads
`task.depends_on` — raises `AttributeError` on every call; the embedding
keeps the two layers apart (`TaskRow` for the table row, `TaskRec` for the
dataclass record) and routes the raise through `Except.error`, so
`get_next_pending_task` and `claim_next_task` error whenever a pending row
exists.
-/

namespace Aqua

/-- Task status (`models.py` `TaskStatus`). -/
inductive TaskStatus where
  | pending
  | claimed
  | done
  | failed
  | abandoned
deriving DecidableEq, Repr

/-- Agent status (`models.py` `AgentStatus`). -/
inductive AgentStatus where
  | active
  | idle
  | dead
deriving DecidableEq, Repr

/-- A row of the `tasks` table (schema in `db.py`).  The `depends_on` column
is the JSON-encoded list of task ids added by the v3 migration; it is read by
`Database._dependencies_met`. -/
structure TaskRow where
  id : String
  title : String
  description : Option String := none
  status : TaskStatus := .pending
  priority : Int := 5
  created_by : Option String := none
  claimed_by : Option String := none
  claim_term : Option Int := none
  created_at : Int := 0
  updated_at : Int := 0
  claimed_at : Option Int := none
  completed_at : Option Int := none
  result : Option String := none
  error : Option String := none
  retry_count : Int := 0
  max_retries : Int := 3
  tags : List String := []
  context : Option String := none
  version : Int := 1
  depends_on : List String := []
deriving DecidableEq, Repr

/-- The in-memory record built by `models.py` `Task` / `Task.from_row`.
The dataclass declares every column of the `tasks` table EXCEPT
`depends_on`: `from_row` does not decode that column and no constructor
call assigns it, so reading `task.depends_on` on such a record raises
`AttributeError` in the source. -/
structure TaskRec where
  id : String
  title : String
  description : Option String := none
  status : TaskStatus := .pending
  priority : Int := 5
  created_by : Option String := none
  claimed_by : Option String := none
  claim_term : Option Int := none
  created_at : Int := 0
  updated_at : Int := 0
  claimed_at : Option Int := none
  completed_at : Option Int := none
  result : Option String := none
  error : Option String := none
  retry_count : Int := 0
  max_retries : Int := 3
  tags : List String := []
  context : Option String := none
  version : Int := 1
deriving DecidableEq, Repr

/-- `Task.from_row`: decode a database row into the dataclass record,
dropping the `depends_on` column (the dataclass has no such field). -/
def taskFromRow (r : TaskRow) : TaskRec :=
  { id := r.id, title := r.title, description := r.description,
    status := r.status, priority := r.priority, created_by := r.created_by,
    claimed_by := r.claimed_by, claim_term := r.claim_term,
    created_at := r.created_at, updated_at := r.updated_at,
    claimed_at := r.claimed_at, completed_at := r.completed_at,
    result := r.result, error := r.error, retry_count := r.retry_count,
    max_retries := r.max_retries, tags := r.tags, context := r.context,
    version := r.version }

/-- The `AttributeError` raised when Python reads a dataclass attribute that
was never declared or assigned. -/
def attrError : String :=
  "AttributeError: 'Task' object has no attribute 'depends_on'"

/-- A row of the `agents` table (schema in `db.py`). -/
structure AgentRow where
  id : String
  name : String
  agent_type : String := "generic"
  pid : Option Nat := none
  status : AgentStatus := .active
  last_heartbeat_at : Int := 0
  registered_at : Int := 0
  current_task_id : Option String := none
  capabilities : List String := []
  last_progress : Option String := none
  role : Option String := none
deriving DecidableEq, Repr

/-- The singleton row of the `leader` table. -/
structure LeaderRow where
  agent_id : String
  term : Int
  lease_expires_at : Int
  elected_at : Int
deriving DecidableEq, Repr

/-- A row of the `messages` table.  `to_agent = none` means broadcast. -/
structure MessageRow where
  id : Int
  from_agent : String
  to_agent : Option String := none
  content : String := ""
  message_type : String := "chat"
  created_at : Int := 0
  read_at : Option Int := none
deriving DecidableEq, Repr

/-- A row of the `events` table.  The free-form JSON `details` column is not
inspected by any verified property and is omitted. -/
structure EventRow where
  timestamp : Int
  event_type : String
  agent_id : Option String := none
  task_id : Option String := none
deriving DecidableEq, Repr

/-- A row of the `file_locks` table. -/
structure LockRow where
  file_path : String
  agent_id : String
  locked_at : Int
deriving DecidableEq, Repr

/-- The whole database. -/
structure DBState where
  agents : List AgentRow := []
  tasks : List TaskRow := []
  leader : Option LeaderRow := none
  messages : List MessageRow := []
  events : List EventRow := []
  file_locks : List LockRow := []
deriving DecidableEq, Repr

/-! ## Stable sorting (model of SQLite `ORDER BY`)

`orderBy lt l` sorts `l` stably with respect to the strict order `lt`:
an element is inserted before the first element it is not strictly after,
so rows comparing equal keep their scan (insertion) order, matching the
spec's tie-breaking rule. -/

/-- Insert `x` before the first element `y` with `lt y x = false`. -/
def insLt (lt : α → α → Bool) (x : α) : List α → List α
  | [] => [x]
  | y :: ys => if lt y x then y :: insLt lt x ys else x :: y :: ys

/-- Stable insertion sort by the strict order `lt`. -/
def orderBy (lt : α → α → Bool) : List α → List α
  | [] => []
  | x :: xs => insLt lt x (orderBy lt xs)

/-- Strict order for `ORDER BY priority DESC, created_at ASC` on tasks. -/
def taskLt (t u : TaskRow) : Bool :=
  u.priority < t.priority || (u.priority == t.priority && t.created_at < u.created_at)

/-- Strict order for `ORDER BY registered_at` on agents. -/
def agentLt (a b : AgentRow) : Bool := a.registered_at < b.registered_at

/-- Strict order for `ORDER BY created_at DESC` on messages. -/
def msgLt (m n : MessageRow) : Bool := n.created_at < m.created_at

/-! ## Database operations (`db.py`) -/

/-- `Database.log_event`: append a row to the `events` table. -/
def logEvent (st : DBState) (etype : String) (agentId taskId : Option String)
    (now : Int) : DBState :=
  { st with events := st.events ++ [⟨now, etype, agentId, taskId⟩] }

/-- `Database.get_agent`: `SELECT * FROM agents WHERE id = ?`. -/
def getAgent (st : DBState) (agentId : String) : Option AgentRow :=
  st.agents.find? (fun a => a.id == agentId)

/-- `Database.get_all_agents(status=...)`: filter by status, ordered by
`registered_at`. -/
def getAllAgentsByStatus (st : DBState) (s : AgentStatus) : List AgentRow :=
  orderBy agentLt (st.agents.filter (fun a => a.status == s))

/-- `Database.update_heartbeat`. -/
def updateHeartbeat (st : DBState) (agentId : String) (now : Int) : DBState :=
  { st with agents := st.agents.map (fun a =>
      if a.id == agentId then { a with last_heartbeat_at := now } else a) }

/-- `Database.update_agent_status`. -/
def updateAgentStatus (st : DBState) (agentId : String) (s : AgentStatus) : DBState :=
  { st with agents := st.agents.map (fun a =>
      if a.id == agentId then { a with status := s } else a) }

/-- `Database.update_agent_task`. -/
def updateAgentTask (st : DBState) (agentId : String) (taskId : Option String) : DBState :=
  { st with agents := st.agents.map (fun a =>
      if a.id == agentId then { a with current_task_id := taskId } else a) }

/-- `Database.get_task`: `SELECT * FROM tasks WHERE id = ?`. -/
def getTask (st : DBState) (taskId : String) : Option TaskRow :=
  st.tasks.find? (fun t => t.id == taskId)

/-- `Database.get_all_tasks(status=..., claimed_by=...)`, ordered by
`priority DESC, created_at ASC`. -/
def getAllTasksBy (st : DBState) (status : Option TaskStatus)
    (claimedBy : Option String) : List TaskRow :=
  orderBy taskLt (st.tasks.filter (fun t =>
    (match status with | some s => t.status == s | none => true) &&
    (match claimedBy with | some a => t.claimed_by == some a | none => true)))

/-- `Database._dependencies_met(task)`: its first statement
(`if not task.depends_on:`) reads `task.depends_on`, but the `Task`
dataclass of `models.py` has no `depends_on` field and `from_row` never
assigns one, so every call raises `AttributeError` instead of checking the
dependencies.  The intended check on the `depends_on` column is dead code
behind the raise. -/
def dependenciesMet (_st : DBState) (_t : TaskRec) : Except String Bool :=
  Except.error attrError

/-- The scan loop of `Database.get_next_pending_task`: for each pending row
(in order) build the dataclass record (`Task.from_row`) and call
`_dependencies_met`; a raised `AttributeError` propagates out. -/
def firstDepMet (st : DBState) : List TaskRow → Except String (Option TaskRow)
  | [] => Except.ok none
  | row :: rest =>
      match dependenciesMet st (taskFromRow row) with
      | Except.error e => Except.error e
      | Except.ok true => Except.ok (some row)
      | Except.ok false => firstDepMet st rest

/-- `Database.get_next_pending_task`: scan pending tasks in
`priority DESC, created_at ASC` order for the first whose dependencies are
met.  Because `_dependencies_met` raises on its argument, the scan raises
`AttributeError` whenever any pending row exists and returns `None` only
when there is none. -/
def getNextPendingTask (st : DBState) : Except String (Option TaskRow) :=
  firstDepMet st (orderBy taskLt (st.tasks.filter (fun t => t.status == .pending)))

/-- The row rewrite of `Database.claim_task`'s conditional `UPDATE`. -/
def claimUpd (taskId agentId : String) (term now : Int) (t : TaskRow) : TaskRow :=
  if t.id == taskId && t.status == .pending then
    { t with status := .claimed, claimed_by := some agentId, claimed_at := some now,
             claim_term := some term, updated_at := now }
  else t

/-- `Database.claim_task`: conditional `UPDATE ... WHERE id = ? AND
status = 'pending'`; succeeds (and logs `task_claimed`) iff the rowcount is
exactly 1. -/
def claimTask (st : DBState) (taskId agentId : String) (term now : Int) :
    DBState × Bool :=
  let matched := (st.tasks.filter (fun t => t.id == taskId && t.status == .pending)).length
  let st' := { st with tasks := st.tasks.map (claimUpd taskId agentId term now) }
  if matched == 1 then
    (logEvent st' "task_claimed" (some agentId) (some taskId) now, true)
  else (st', false)

/-- The row rewrite of `Database.complete_task`'s conditional `UPDATE`. -/
def completeUpd (taskId agentId : String) (result : Option String) (now : Int)
    (t : TaskRow) : TaskRow :=
  if t.id == taskId && t.claimed_by == some agentId && t.status == .claimed then
    { t with status := .done, completed_at := some now, result := result,
             updated_at := now }
  else t

/-- `Database.complete_task`: conditional `UPDATE ... WHERE id = ? AND
claimed_by = ? AND status = 'claimed'`; succeeds (and logs `task_completed`)
iff the rowcount is exactly 1. -/
def completeTask (st : DBState) (taskId agentId : String) (result : Option String)
    (now : Int) : DBState × Bool :=
  let matched := (st.tasks.filter (fun t =>
    t.id == taskId && t.claimed_by == some agentId && t.status == .claimed)).length
  let st' := { st with tasks := st.tasks.map (completeUpd taskId agentId result now) }
  if matched == 1 then
    (logEvent st' "task_completed" (some agentId) (some taskId) now, true)
  else (st', false)

/-- The row rewrite of `Database.fail_task`'s conditional `UPDATE`. -/
def failUpd (taskId agentId error : String) (now : Int) (t : TaskRow) : TaskRow :=
  if t.id == taskId && t.claimed_by == some agentId && t.status == .claimed then
    { t with status := .failed, error := some error, updated_at := now,
             retry_count := t.retry_count + 1 }
  else t

/-- `Database.fail_task`: conditional `UPDATE`; succeeds (and logs
`task_failed`) iff the rowcount is exactly 1. -/
def failTask (st : DBState) (taskId agentId error : String) (now : Int) :
    DBState × Bool :=
  let matched := (st.tasks.filter (fun t =>
    t.id == taskId && t.claimed_by == some agentId && t.status == .claimed)).length
  let st' := { st with tasks := st.tasks.map (failUpd taskId agentId error now) }
  if matched == 1 then
    (logEvent st' "task_failed" (some agentId) (some taskId) now, true)
  else (st', false)

/-- The row rewrite of `Database.abandon_task`'s conditional `UPDATE`. -/
def abandonUpd (taskId reason : String) (now : Int) (t : TaskRow) : TaskRow :=
  if t.id == taskId && t.status == .claimed then
    { t with status := .abandoned, claimed_by := none, error := some reason,
             updated_at := now, retry_count := t.retry_count + 1 }
  else t

/-- `Database.abandon_task`: conditional `UPDATE ... WHERE id = ? AND
status = 'claimed'`; succeeds (and logs `task_abandoned`) iff the rowcount is
exactly 1. -/
def abandonTask (st : DBState) (taskId reason : String) (now : Int) :
    DBState × Bool :=
  let matched := (st.tasks.filter (fun t =>
    t.id == taskId && t.status == .claimed)).length
  let st' := { st with tasks := st.tasks.map (abandonUpd taskId reason now) }
  if matched == 1 then
    (logEvent st' "task_abandoned" none (some taskId) now, true)
  else (st', false)

/-- The row rewrite of `Database.requeue_abandoned_tasks`'s `UPDATE`. -/
def requeueUpd (now : Int) (t : TaskRow) : TaskRow :=
  if t.status == .abandoned && t.retry_count < t.max_retries then
    { t with status := .pending, updated_at := now }
  else t

/-- `Database.requeue_abandoned_tasks`: `UPDATE tasks SET status='pending'
WHERE status='abandoned' AND retry_count < max_retries`; returns the
rowcount. -/
def requeueAbandonedTasks (st : DBState) (now : Int) : DBState × Nat :=
  let matched := (st.tasks.filter (fun t =>
    t.status == .abandoned && t.retry_count < t.max_retries)).length
  ({ st with tasks := st.tasks.map (requeueUpd now) }, matched)

/-- `Database.get_leader` / `Database.get_current_term`. -/
def getCurrentTerm (st : DBState) : Int :=
  match st.leader with
  | some l => l.term
  | none => 0

/-- The conditional `UPDATE` of `Database.try_become_leader`'s expired
branch: `SET agent_id=?, term=?, lease_expires_at=?, elected_at=?
WHERE id = 1 AND term = ?`, where the new term is `observedTerm + 1`.
Returns the (possibly unchanged) row, whether exactly one row changed, and
the reported term. -/
def casTakeover (row : LeaderRow) (observedTerm : Int) (agentId : String)
    (now lease : Int) : LeaderRow × Bool × Int :=
  if row.term == observedTerm then
    (⟨agentId, observedTerm + 1, now + lease, now⟩, true, observedTerm + 1)
  else (row, false, 0)

/-- `Database.try_become_leader(agent_id, lease_seconds)`: one immediate
transaction that reads the leader row and inserts, renews, rejects, or
attempts the `casTakeover` conditional update. -/
def tryBecomeLeader (st : DBState) (agentId : String) (now lease : Int) :
    DBState × Bool × Int :=
  match st.leader with
  | none =>
      (logEvent { st with leader := some ⟨agentId, 1, now + lease, now⟩ }
        "leader_elected" (some agentId) none now, true, 1)
  | some current =>
      if now < current.lease_expires_at then
        if current.agent_id == agentId then
          ({ st with leader := some { current with lease_expires_at := now + lease } },
           true, current.term)
        else (st, false, 0)
      else
        let (row', ok, t) := casTakeover current current.term agentId now lease
        let st' := { st with leader := some row' }
        if ok then (logEvent st' "leader_elected" (some agentId) none now, true, t)
        else (st', false, 0)

/-- `Database.create_message`: insert a row (id chosen by AUTOINCREMENT,
passed here explicitly). -/
def createMessage (st : DBState) (msgId : Int) (fromAgent : String)
    (toAgent : Option String) (content : String) (now : Int) : DBState :=
  { st with messages := st.messages ++
      [⟨msgId, fromAgent, toAgent, content, "chat", now, none⟩] }

/-- `Database.get_messages(to_agent, unread_only, limit)`: messages addressed
to the agent or broadcast, optionally unread only, newest first, limited. -/
def getMessages (st : DBState) (toAgent : Option String) (unreadOnly : Bool)
    (limit : Nat) : List MessageRow :=
  ((orderBy msgLt (st.messages.filter (fun m =>
      (match toAgent with
       | some a => m.to_agent == some a || m.to_agent == none
       | none => true) &&
      (!unreadOnly || m.read_at == none)))).take limit)

/-- `Database.mark_messages_read`: `UPDATE messages SET read_at = ? WHERE id
IN (...) AND (to_agent = ? OR to_agent IS NULL)`; returns the rowcount. -/
def markMessagesRead (st : DBState) (agentId : String) (messageIds : List Int)
    (now : Int) : DBState × Nat :=
  let matched := (st.messages.filter (fun m =>
    messageIds.contains m.id && (m.to_agent == some agentId || m.to_agent == none))).length
  ({ st with messages := st.messages.map (fun m =>
      if messageIds.contains m.id && (m.to_agent == some agentId || m.to_agent == none)
      then { m with read_at := some now } else m) }, matched)

/-- `Database.release_agent_locks`: `DELETE FROM file_locks WHERE
agent_id = ?`; returns the count released.  (Defined in `db.py` but never
called by the coordinator.) -/
def releaseAgentLocks (st : DBState) (agentId : String) : DBState × Nat :=
  let released := (st.file_locks.filter (fun l => l.agent_id == agentId)).length
  ({ st with file_locks := st.file_locks.filter (fun l => !(l.agent_id == agentId)) },
   released)

/-! ## Coordinator operations (`coordinator.py`) -/

/-- Truthiness of `agent.pid` followed by `process_exists(agent.pid)`
(`utils.process_exists`, a zero-signal probe, abstracted by the predicate
`alive`).  A `pid` of `None` (and, by Python truthiness, `0`) short-circuits
to false. -/
def pidAlive (alive : Nat → Bool) : Option Nat → Bool
  | none => false
  | some p => p != 0 && alive p

/-- `Coordinator.claim_next_task`: read the leader term for fencing, select
the next pending task with met dependencies, attempt the atomic claim, and on
success point the agent's `current_task_id` at it and return the refreshed
row.  The `AttributeError` raised inside `get_next_pending_task` is not
caught and propagates to the caller, so the claim branch is unreachable. -/
def claimNextTask (st : DBState) (agentId : String) (now : Int) :
    Except String (DBState × Option TaskRow) :=
  let term := getCurrentTerm st
  match getNextPendingTask st with
  | Except.error e => Except.error e
  | Except.ok none => Except.ok (st, none)
  | Except.ok (some task) =>
      let r1 := claimTask st task.id agentId term now
      if r1.2 then
        let st2 := updateAgentTask r1.1 agentId (some task.id)
        Except.ok (st2, getTask st2 task.id)
      else Except.ok (r1.1, none)

/-- `Coordinator.claim_specific_task`. -/
def claimSpecificTask (st : DBState) (agentId taskId : String) (now : Int) :
    DBState × Option TaskRow :=
  let term := getCurrentTerm st
  let r1 := claimTask st taskId agentId term now
  if r1.2 then
    let st2 := updateAgentTask r1.1 agentId (some taskId)
    (st2, getTask st2 taskId)
  else (r1.1, none)

/-- `Coordinator.complete_task` with an explicit task id: the `Database`
completion, then clearing the agent's `current_task_id` on success. -/
def coordCompleteTask (st : DBState) (agentId taskId : String)
    (result : Option String) (now : Int) : DBState × Bool :=
  let r1 := completeTask st taskId agentId result now
  if r1.2 then (updateAgentTask r1.1 agentId none, true) else (r1.1, false)

/-- `Coordinator.fail_task` with an explicit task id. -/
def coordFailTask (st : DBState) (agentId taskId error : String) (now : Int) :
    DBState × Bool :=
  let r1 := failTask st taskId agentId error now
  if r1.2 then (updateAgentTask r1.1 agentId none, true) else (r1.1, false)

/-- `Coordinator._recover_agent`: mark the agent dead, abandon every task it
holds (`status=claimed, claimed_by=agent`), and log `agent_died`. -/
def recoverAgent (st : DBState) (a : AgentRow) (now : Int) : DBState :=
  let st1 := updateAgentStatus st a.id .dead
  let held := getAllTasksBy st1 (some .claimed) (some a.id)
  let st2 := held.foldl (fun s t =>
    (abandonTask s t.id ("Agent " ++ a.name ++ " died") now).1) st1
  logEvent st2 "agent_died" (some a.id) none now

/-- One iteration of the loop in `Coordinator.recover_dead_agents` over the
snapshot of active agents: skip fresh heartbeats; log `agent_unresponsive`
(without recovering) when the heartbeat is stale but the PID is alive;
otherwise recover the agent and record its id. -/
def recoverStep (alive : Nat → Bool) (now deadThreshold : Int)
    (acc : DBState × List String) (a : AgentRow) : DBState × List String :=
  if now - deadThreshold ≤ a.last_heartbeat_at then acc
  else if pidAlive alive a.pid then
    (logEvent acc.1 "agent_unresponsive" (some a.id) none now, acc.2)
  else (recoverAgent acc.1 a now, acc.2 ++ [a.id])

/-- `Coordinator.recover_dead_agents`: fold `recoverStep` over the snapshot
of active agents; returns the new state and the recovered agent ids. -/
def recoverDeadAgents (alive : Nat → Bool) (now deadThreshold : Int)
    (st : DBState) : DBState × List String :=
  (getAllAgentsByStatus st .active).foldl (recoverStep alive now deadThreshold)
    (st, [])

/-- One iteration of the loop in `Coordinator.recover_stale_tasks` over the
snapshot of claimed tasks. -/
def staleStep (now claimTimeout : Int) (acc : DBState × Nat) (t : TaskRow) :
    DBState × Nat :=
  match t.claimed_at with
  | some c =>
      if c < now - claimTimeout then
        ((abandonTask acc.1 t.id "Task timed out" now).1, acc.2 + 1)
      else acc
  | none => acc

/-- `Coordinator.recover_stale_tasks`: abandon every claimed task whose
`claimed_at` is older than the claim timeout; returns the count. -/
def recoverStaleTasks (st : DBState) (now claimTimeout : Int) : DBState × Nat :=
  (getAllTasksBy st (some .claimed) none).foldl (staleStep now claimTimeout)
    (st, 0)

/-- `Coordinator.run_recovery`: dead-agent sweep, stale-claim sweep, then the
re-queue of abandoned tasks. -/
def runRecovery (alive : Nat → Bool) (now deadThreshold claimTimeout : Int)
    (st : DBState) : DBState × List String × Nat × Nat :=
  let r1 := recoverDeadAgents alive now deadThreshold st
  let r2 := recoverStaleTasks r1.1 now claimTimeout
  let r3 := requeueAbandonedTasks r2.1 now
  (r3.1, r1.2, r2.2, r3.2)

/-! ## List and sorting infrastructure -/

theorem perm_insLt (lt : α → α → Bool) (x : α) (l : List α) :
    List.Perm (insLt lt x l) (x :: l) := by
  induction l with
  | nil => simp [insLt]
  | cons y ys ih =>
      simp only [insLt]
      split
      · exact (ih.cons y).trans (List.Perm.swap x y ys)
      · exact List.Perm.refl _

theorem perm_orderBy (lt : α → α → Bool) (l : List α) :
    List.Perm (orderBy lt l) l := by
  induction l with
  | nil => exact List.Perm.refl _
  | cons x xs ih => exact (perm_insLt lt x (orderBy lt xs)).trans (ih.cons x)

theorem mem_orderBy {lt : α → α → Bool} {l : List α} {a : α} :
    a ∈ orderBy lt l ↔ a ∈ l :=
  (perm_orderBy lt l).mem_iff

/-- Rows with `Nodup` keys are determined by their key. -/
theorem eq_of_nodup_key {l : List α} {f : α → β} (hnd : (l.map f).Nodup)
    {a b : α} (ha : a ∈ l) (hb : b ∈ l) (hab : f a = f b) : a = b :=
  List.inj_on_of_nodup_map hnd ha hb hab

/-- A map whose function fixes every member is the identity. -/
theorem map_id_of_mem {l : List α} {f : α → α} (h : ∀ x ∈ l, f x = x) :
    l.map f = l := by
  induction l with
  | nil => rfl
  | cons x xs ih =>
      simp only [List.map_cons, h x (List.mem_cons_self x xs),
        ih (fun y hy => h y (List.mem_cons_of_mem _ hy))]

/-- Fold invariant principle. -/
theorem foldl_inv (P : γ → Prop) {l : List β} {g : γ → β → γ}
    (h : ∀ acc b, b ∈ l → P acc → P (g acc b)) :
    ∀ init, P init → P (l.foldl g init) := by
  induction l with
  | nil => intro init hP; exact hP
  | cons x xs ih =>
      intro init hP
      exact ih (fun acc b hb => h acc b (List.mem_cons_of_mem _ hb)) _
        (h init x (List.mem_cons_self x xs) hP)

/-! ## Projection lemmas: which tables each operation touches -/

theorem logEvent_tasks (st : DBState) (e : String) (a t : Option String)
    (n : Int) : (logEvent st e a t n).tasks = st.tasks := rfl

theorem logEvent_agents (st : DBState) (e : String) (a t : Option String)
    (n : Int) : (logEvent st e a t n).agents = st.agents := rfl

theorem logEvent_locks (st : DBState) (e : String) (a t : Option String)
    (n : Int) : (logEvent st e a t n).file_locks = st.file_locks := rfl

theorem updateAgentStatus_tasks (st : DBState) (aid : String) (s : AgentStatus) :
    (updateAgentStatus st aid s).tasks = st.tasks := rfl

theorem updateAgentTask_tasks (st : DBState) (aid : String)
    (tid : Option String) : (updateAgentTask st aid tid).tasks = st.tasks := rfl

theorem claimTask_tasks (st : DBState) (tid aid : String) (term now : Int) :
    (claimTask st tid aid term now).1.tasks =
      st.tasks.map (claimUpd tid aid term now) := by
  unfold claimTask
  dsimp only
  split <;> rfl

theorem completeTask_tasks (st : DBState) (tid aid : String)
    (result : Option String) (now : Int) :
    (completeTask st tid aid result now).1.tasks =
      st.tasks.map (completeUpd tid aid result now) := by
  unfold completeTask
  dsimp only
  split <;> rfl

theorem failTask_tasks (st : DBState) (tid aid err : String) (now : Int) :
    (failTask st tid aid err now).1.tasks =
      st.tasks.map (failUpd tid aid err now) := by
  unfold failTask
  dsimp only
  split <;> rfl

theorem abandonTask_tasks (st : DBState) (tid reason : String) (now : Int) :
    (abandonTask st tid reason now).1.tasks =
      st.tasks.map (abandonUpd tid reason now) := by
  unfold abandonTask
  dsimp only
  split <;> rfl

theorem abandonTask_agents (st : DBState) (tid reason : String) (now : Int) :
    (abandonTask st tid reason now).1.agents = st.agents := by
  unfold abandonTask
  dsimp only
  split <;> rfl

theorem abandonTask_locks (st : DBState) (tid reason : String) (now : Int) :
    (abandonTask st tid reason now).1.file_locks = st.file_locks := by
  unfold abandonTask
  dsimp only
  split <;> rfl

/-! ## Preservation of rows not matched by the conditional updates -/

/-- A row that is not `claimed` is untouched by `abandonUpd`. -/
theorem abandonUpd_id {tid reason : String} {now : Int} {r : TaskRow}
    (h : r.status ≠ .claimed) : abandonUpd tid reason now r = r := by
  unfold abandonUpd
  rw [if_neg]
  simp only [Bool.and_eq_true, beq_iff_eq, not_and]
  exact fun _ => h

theorem claimUpd_id {tid aid : String} {term now : Int} {r : TaskRow}
    (h : r.status ≠ .pending) : claimUpd tid aid term now r = r := by
  unfold claimUpd
  rw [if_neg]
  simp only [Bool.and_eq_true, beq_iff_eq, not_and]
  exact fun _ => h

theorem completeUpd_id {tid aid : String} {result : Option String} {now : Int}
    {r : TaskRow} (h : r.status ≠ .claimed) : completeUpd tid aid result now r = r := by
  unfold completeUpd
  rw [if_neg]
  simp only [Bool.and_eq_true, beq_iff_eq, not_and]
  exact fun _ => h

theorem failUpd_id {tid aid err : String} {now : Int} {r : TaskRow}
    (h : r.status ≠ .claimed) : failUpd tid aid err now r = r := by
  unfold failUpd
  rw [if_neg]
  simp only [Bool.and_eq_true, beq_iff_eq, not_and]
  exact fun _ => h

theorem requeueUpd_id {now : Int} {r : TaskRow}
    (h : r.status ≠ .abandoned) : requeueUpd now r = r := by
  unfold requeueUpd
  rw [if_neg]
  simp only [Bool.and_eq_true, beq_iff_eq, not_and]
  intro hc
  exact absurd hc h

/-- A non-claimed row survives `abandonTask` unchanged. -/
theorem abandonTask_preserves {st : DBState} {tid reason : String} {now : Int}
    {r : TaskRow} (hr : r ∈ st.tasks) (h : r.status ≠ .claimed) :
    r ∈ (abandonTask st tid reason now).1.tasks := by
  rw [abandonTask_tasks]
  have := List.mem_map_of_mem (abandonUpd tid reason now) hr
  rwa [abandonUpd_id h] at this

/-- A non-claimed row survives the dead-agent sweep unchanged. -/
theorem recoverDeadAgents_preserves_nonclaimed {alive : Nat → Bool}
    {now thr : Int} {st : DBState} {r : TaskRow}
    (hr : r ∈ st.tasks) (h : r.status ≠ .claimed) :
    r ∈ (recoverDeadAgents alive now thr st).1.tasks := by
  unfold recoverDeadAgents
  refine foldl_inv (fun (acc : DBState × List String) => r ∈ acc.1.tasks) ?_
    (st, []) hr
  intro acc a _ hacc
  unfold recoverStep
  split
  · exact hacc
  · split
    · exact hacc
    · show r ∈ (recoverAgent acc.1 a now).tasks
      unfold recoverAgent
      rw [logEvent_tasks]
      refine foldl_inv (fun (s : DBState) => r ∈ s.tasks) ?_ _ hacc
      intro s t _ hs
      exact abandonTask_preserves hs h

/-- A non-claimed row survives the stale-claim sweep unchanged. -/
theorem recoverStaleTasks_preserves_nonclaimed {now timeout : Int}
    {st : DBState} {r : TaskRow} (hr : r ∈ st.tasks) (h : r.status ≠ .claimed) :
    r ∈ (recoverStaleTasks st now timeout).1.tasks := by
  unfold recoverStaleTasks
  refine foldl_inv (fun (acc : DBState × Nat) => r ∈ acc.1.tasks) ?_ (st, 0) hr
  intro acc t _ hacc
  unfold staleStep
  split
  · split
    · exact abandonTask_preserves hacc h
    · exact hacc
  · exact hacc

/-! ## Claim theorems -/

theorem requeueAbandonedTasks_tasks (st : DBState) (now : Int) :
    (requeueAbandonedTasks st now).1.tasks = st.tasks.map (requeueUpd now) := rfl

/-- A row that is abandoned under the retry cap is rewritten to pending by
`requeueUpd`. -/
theorem requeueUpd_requeues {now : Int} {r : TaskRow}
    (h1 : r.status = .abandoned) (h2 : r.retry_count < r.max_retries) :
    requeueUpd now r = { r with status := .pending, updated_at := now } := by
  unfold requeueUpd
  rw [if_pos]
  simp only [Bool.and_eq_true, beq_iff_eq, decide_eq_true_eq]
  exact ⟨h1, h2⟩

/-- A row that is abandoned over the retry cap is untouched by
`requeueUpd`. -/
theorem requeueUpd_capped {now : Int} {r : TaskRow}
    (h2 : r.max_retries ≤ r.retry_count) : requeueUpd now r = r := by
  unfold requeueUpd
  rw [if_neg]
  simp only [Bool.and_eq_true, beq_iff_eq, decide_eq_true_eq, not_and, not_lt]
  exact fun _ => h2

/-- C6: After `requeue_abandoned_tasks` (and hence after `run_recovery`),
every task that had status `abandoned` with `retry_count < max_retries` is
`pending`, every task that had status `abandoned` with
`retry_count >= max_retries` is still `abandoned` (unchanged), and tasks in
any other status are not changed by the sweep. -/
theorem requeue_abandoned_under_cap (st : DBState) (now : Int)
    (alive : Nat → Bool) (deadThr claimTimeout : Int) (r : TaskRow)
    (hr : r ∈ st.tasks) :
    (r.status = .abandoned → r.retry_count < r.max_retries →
      { r with status := .pending, updated_at := now } ∈
        (requeueAbandonedTasks st now).1.tasks) ∧
    (r.status = .abandoned → r.max_retries ≤ r.retry_count →
      r ∈ (requeueAbandonedTasks st now).1.tasks) ∧
    (r.status ≠ .abandoned → r ∈ (requeueAbandonedTasks st now).1.tasks) ∧
    (r.status = .abandoned → r.retry_count < r.max_retries →
      { r with status := .pending, updated_at := now } ∈
        (runRecovery alive now deadThr claimTimeout st).1.tasks) ∧
    (r.status = .abandoned → r.max_retries ≤ r.retry_count →
      r ∈ (runRecovery alive now deadThr claimTimeout st).1.tasks) := by
  have habpre : r.status = .abandoned →
      r ∈ (recoverStaleTasks (recoverDeadAgents alive now deadThr st).1 now
            claimTimeout).1.tasks := by
    intro hab
    have hnc : r.status ≠ .claimed := by rw [hab]; intro hc; cases hc
    exact recoverStaleTasks_preserves_nonclaimed
      (recoverDeadAgents_preserves_nonclaimed hr hnc) hnc
  refine ⟨?_, ?_, ?_, ?_, ?_⟩
  · intro hab hcap
    rw [requeueAbandonedTasks_tasks]
    have := List.mem_map_of_mem (requeueUpd now) hr
    rwa [requeueUpd_requeues hab hcap] at this
  · intro hab hcap
    rw [requeueAbandonedTasks_tasks]
    have := List.mem_map_of_mem (requeueUpd now) hr
    rwa [requeueUpd_capped hcap] at this
  · intro hna
    rw [requeueAbandonedTasks_tasks]
    have := List.mem_map_of_mem (requeueUpd now) hr
    rwa [requeueUpd_id hna] at this
  · intro hab hcap
    show { r with status := .pending, updated_at := now } ∈
      (requeueAbandonedTasks (recoverStaleTasks
        (recoverDeadAgents alive now deadThr st).1 now claimTimeout).1 now).1.tasks
    rw [requeueAbandonedTasks_tasks]
    have := List.mem_map_of_mem (requeueUpd now) (habpre hab)
    rwa [requeueUpd_requeues hab hcap] at this
  · intro hab hcap
    show r ∈ (requeueAbandonedTasks (recoverStaleTasks
        (recoverDeadAgents alive now deadThr st).1 now claimTimeout).1 now).1.tasks
    rw [requeueAbandonedTasks_tasks]
    have := List.mem_map_of_mem (requeueUpd now) (habpre hab)
    rwa [requeueUpd_capped hcap] at this

/-- C6 witness at a concrete state: one abandoned task under the cap and one
over the cap. -/
theorem requeue_abandoned_under_cap_witness :
    ({ id := "t1", title := "a", status := .abandoned, retry_count := 1,
       max_retries := 3 : TaskRow }.status = TaskStatus.abandoned) ∧
    ({ id := "t1", title := "a", status := .abandoned, retry_count := 1,
       max_retries := 3 : TaskRow } ∈
      ({ tasks := [{ id := "t1", title := "a", status := .abandoned,
                     retry_count := 1, max_retries := 3 : TaskRow }] : DBState }).tasks) ∧
    ({ id := "t1", title := "a", status := .pending, retry_count := 1,
       max_retries := 3, updated_at := 7 : TaskRow } ∈
      (requeueAbandonedTasks
        { tasks := [{ id := "t1", title := "a", status := .abandoned,
                      retry_count := 1, max_retries := 3 : TaskRow }] : DBState }
        7).1.tasks) := by
  refine ⟨by decide, by decide, ?_⟩
  have h := requeue_abandoned_under_cap
    { tasks := [{ id := "t1", title := "a", status := .abandoned,
                  retry_count := 1, max_retries := 3 : TaskRow }] : DBState }
    7 (fun _ => false) 300 1800
    { id := "t1", title := "a", status := .abandoned, retry_count := 1,
      max_retries := 3 : TaskRow }
    (by decide)
  exact h.1 (by decide) (by decide)

/-- C7: Once a task is `done` or `failed`, none of `claim_task`,
`complete_task`, `fail_task`, `abandon_task`, `requeue_abandoned_tasks`,
`recover_dead_agents`, `recover_stale_tasks` changes its row (in particular
its status): the row survives each operation unchanged. -/
theorem terminal_status_closure (st : DBState) (r : TaskRow)
    (tid aid reason err : String) (result : Option String)
    (term now timeout thr : Int) (alive : Nat → Bool)
    (hr : r ∈ st.tasks) (hterm : r.status = .done ∨ r.status = .failed) :
    r ∈ (claimTask st tid aid term now).1.tasks ∧
    r ∈ (completeTask st tid aid result now).1.tasks ∧
    r ∈ (failTask st tid aid err now).1.tasks ∧
    r ∈ (abandonTask st tid reason now).1.tasks ∧
    r ∈ (requeueAbandonedTasks st now).1.tasks ∧
    r ∈ (recoverDeadAgents alive now thr st).1.tasks ∧
    r ∈ (recoverStaleTasks st now timeout).1.tasks := by
  have hnp : r.status ≠ .pending := by
    rcases hterm with h | h <;> rw [h] <;> intro hc <;> cases hc
  have hnc : r.status ≠ .claimed := by
    rcases hterm with h | h <;> rw [h] <;> intro hc <;> cases hc
  have hna : r.status ≠ .abandoned := by
    rcases hterm with h | h <;> rw [h] <;> intro hc <;> cases hc
  refine ⟨?_, ?_, ?_, ?_, ?_, ?_, ?_⟩
  · rw [claimTask_tasks]
    have := List.mem_map_of_mem (claimUpd tid aid term now) hr
    rwa [claimUpd_id hnp] at this
  · rw [completeTask_tasks]
    have := List.mem_map_of_mem (completeUpd tid aid result now) hr
    rwa [completeUpd_id hnc] at this
  · rw [failTask_tasks]
    have := List.mem_map_of_mem (failUpd tid aid err now) hr
    rwa [failUpd_id hnc] at this
  · exact abandonTask_preserves hr hnc
  · rw [requeueAbandonedTasks_tasks]
    have := List.mem_map_of_mem (requeueUpd now) hr
    rwa [requeueUpd_id hna] at this
  · exact recoverDeadAgents_preserves_nonclaimed hr hnc
  · exact recoverStaleTasks_preserves_nonclaimed hr hnc

/-- C7 witness at a concrete state holding one `done` task. -/
theorem terminal_status_closure_witness :
    ({ id := "t1", title := "a", status := .done : TaskRow } ∈
      ({ tasks := [{ id := "t1", title := "a", status := .done : TaskRow }] :
        DBState }).tasks) ∧
    ({ id := "t1", title := "a", status := .done : TaskRow } ∈
      (claimTask { tasks := [{ id := "t1", title := "a", status := .done :
          TaskRow }] : DBState } "t1" "a1" 0 5).1.tasks) ∧
    ({ id := "t1", title := "a", status := .done : TaskRow } ∈
      (recoverStaleTasks
        { tasks := [{ id := "t1", title := "a", status := .done : TaskRow }] :
          DBState } 5 1800).1.tasks) := by
  have h := terminal_status_closure
    { tasks := [{ id := "t1", title := "a", status := .done : TaskRow }] :
      DBState }
    { id := "t1", title := "a", status := .done : TaskRow }
    "t1" "a1" "reason" "err" none 0 5 1800 300 (fun _ => false)
    (by decide) (Or.inl (by decide))
  exact ⟨by decide, h.1, h.2.2.2.2.2.2⟩

/-- C10: If no row of the task table is both `claimed` and claimed by the
calling agent under the given id, `complete_task` and `fail_task` return
`False` and leave the whole database unchanged: no field of any task row is
mutated and no `task_completed`/`task_failed` event is logged. -/
theorem complete_fail_reject_no_mutation (st : DBState) (tid aid err : String)
    (result : Option String) (now : Int)
    (h : ∀ r ∈ st.tasks, r.id = tid →
      ¬(r.status = .claimed ∧ r.claimed_by = some aid)) :
    completeTask st tid aid result now = (st, false) ∧
    failTask st tid aid err now = (st, false) := by
  have hg : ∀ r ∈ st.tasks,
      (r.id == tid && r.claimed_by == some aid && r.status == TaskStatus.claimed)
        = false := by
    intro r hr
    rw [Bool.eq_false_iff]
    intro hc
    simp only [Bool.and_eq_true, beq_iff_eq] at hc
    exact h r hr hc.1.1 ⟨hc.2, hc.1.2⟩
  have hfil :
      (st.tasks.filter (fun r =>
        r.id == tid && r.claimed_by == some aid && r.status == TaskStatus.claimed))
        = [] := by
    apply List.filter_eq_nil_iff.mpr
    intro r hr
    simp [hg r hr]
  constructor
  · have hmap : st.tasks.map (completeUpd tid aid result now) = st.tasks := by
      apply map_id_of_mem
      intro r hr
      simp [completeUpd, hg r hr]
    unfold completeTask
    simp only [hfil, hmap, List.length_nil]
    rfl
  · have hmap : st.tasks.map (failUpd tid aid err now) = st.tasks := by
      apply map_id_of_mem
      intro r hr
      simp [failUpd, hg r hr]
    unfold failTask
    simp only [hfil, hmap, List.length_nil]
    rfl

/-- C10 witness: a task claimed by a different agent, and completion/failure
attempts by `a2`. -/
theorem complete_fail_reject_no_mutation_witness :
    (∀ r ∈ ({ tasks := [{ id := "t1", title := "a", status := .claimed,
                          claimed_by := some "a1" : TaskRow }] : DBState }).tasks,
      r.id = "t1" → ¬(r.status = .claimed ∧ r.claimed_by = some "a2")) ∧
    completeTask
      { tasks := [{ id := "t1", title := "a", status := .claimed,
                    claimed_by := some "a1" : TaskRow }] : DBState }
      "t1" "a2" none 9 =
      ({ tasks := [{ id := "t1", title := "a", status := .claimed,
                     claimed_by := some "a1" : TaskRow }] : DBState }, false) := by
  refine ⟨by decide, ?_⟩
  exact (complete_fail_reject_no_mutation
    { tasks := [{ id := "t1", title := "a", status := .claimed,
                  claimed_by := some "a1" : TaskRow }] : DBState }
    "t1" "a2" "err" none 9 (by decide)).1

/-- The rowcount of `claim_task`'s conditional `UPDATE`: the number of rows
matching `id = ? AND status = 'pending'`. -/
def pendingMatched (st : DBState) (tid : String) : Nat :=
  (st.tasks.filter (fun t => t.id == tid && t.status == TaskStatus.pending)).length

/-- A sequence of `claim_task` attempts on the same task, applied in order
(SQLite serializes writers); returns the final state and the number of
attempts that returned success. -/
def claimAttempts (tid : String) : DBState → List (String × Int × Int) → DBState × Nat
  | st, [] => (st, 0)
  | st, (aid, term, now) :: rest =>
      let r1 := claimTask st tid aid term now
      let r2 := claimAttempts tid r1.1 rest
      (r2.1, (if r1.2 then 1 else 0) + r2.2)

theorem claimTask_succeeds_iff (st : DBState) (tid aid : String) (term now : Int) :
    (claimTask st tid aid term now).2 = true ↔ pendingMatched st tid = 1 := by
  unfold claimTask pendingMatched
  dsimp only
  split
  · rename_i h
    simp only [beq_iff_eq] at h
    exact ⟨fun _ => h, fun _ => rfl⟩
  · rename_i h
    simp only [beq_iff_eq] at h
    simp only [Bool.false_eq_true, false_iff]
    exact h

/-- `claimUpd` never outputs a pending row with the claimed id. -/
theorem claimTask_clears_pending (st : DBState) (tid aid : String)
    (term now : Int) : pendingMatched (claimTask st tid aid term now).1 tid = 0 := by
  unfold pendingMatched
  rw [claimTask_tasks, List.length_eq_zero]
  apply List.filter_eq_nil_iff.mpr
  intro t ht
  rcases List.mem_map.mp ht with ⟨t0, _, rfl⟩
  by_cases hg : (t0.id == tid && t0.status == TaskStatus.pending) = true
  · simp [claimUpd, hg]
  · have hfix : claimUpd tid aid term now t0 = t0 := by
      unfold claimUpd
      exact if_neg hg
    rw [hfix]
    simp only [Bool.not_eq_true] at hg
    simp [hg]

theorem claimAttempts_zero (tid : String) :
    ∀ (l : List (String × Int × Int)) (st : DBState),
      pendingMatched st tid = 0 → (claimAttempts tid st l).2 = 0 := by
  intro l
  induction l with
  | nil => intro st _; rfl
  | cons x rest ih =>
      intro st h0
      obtain ⟨aid, term, now⟩ := x
      have hfail : (claimTask st tid aid term now).2 = false := by
        rw [← Bool.not_eq_true, claimTask_succeeds_iff]
        omega
      simp only [claimAttempts, hfail, if_false, Bool.false_eq_true]
      rw [ih _ (claimTask_clears_pending st tid aid term now)]

theorem claimAttempts_le_one (tid : String) :
    ∀ (l : List (String × Int × Int)) (st : DBState),
      (claimAttempts tid st l).2 ≤ 1 := by
  intro l
  induction l with
  | nil => intro st; exact Nat.zero_le 1
  | cons x rest ih =>
      intro st
      obtain ⟨aid, term, now⟩ := x
      cases hok : (claimTask st tid aid term now).2 with
      | true =>
          have hrest := claimAttempts_zero tid rest
            (claimTask st tid aid term now).1
            (claimTask_clears_pending st tid aid term now)
          simp only [claimAttempts, hok, if_true]
          omega
      | false =>
          simp only [claimAttempts, hok, Bool.false_eq_true, if_false]
          simpa using ih (claimTask st tid aid term now).1

/-- C1: `claim_task` succeeds iff the conditional `UPDATE` guarded by
`status='pending'` changes exactly one row; across any sequence of claim
attempts on the same task at most one succeeds; and after a success the task
row is `claimed` by that caller with `claimed_at` (and the fencing
`claim_term`) set. -/
theorem claim_task_unique (st : DBState) (tid aid : String) (term now : Int)
    (attempts : List (String × Int × Int))
    (hnd : (st.tasks.map TaskRow.id).Nodup) :
    ((claimTask st tid aid term now).2 = true ↔ pendingMatched st tid = 1) ∧
    (claimAttempts tid st attempts).2 ≤ 1 ∧
    ((claimTask st tid aid term now).2 = true →
      ∀ r ∈ (claimTask st tid aid term now).1.tasks, r.id = tid →
        r.status = .claimed ∧ r.claimed_by = some aid ∧
        r.claimed_at = some now ∧ r.claim_term = some term) := by
  refine ⟨claimTask_succeeds_iff st tid aid term now,
    claimAttempts_le_one tid attempts st, ?_⟩
  intro hok r hr hrid
  have hcount : pendingMatched st tid = 1 :=
    (claimTask_succeeds_iff st tid aid term now).mp hok
  unfold pendingMatched at hcount
  obtain ⟨q, hq⟩ := List.exists_mem_of_length_pos (by omega :
    0 < (st.tasks.filter (fun t =>
      t.id == tid && t.status == TaskStatus.pending)).length)
  have hqmem : q ∈ st.tasks := List.mem_of_mem_filter hq
  have hqpred := List.of_mem_filter hq
  simp only [Bool.and_eq_true, beq_iff_eq] at hqpred
  rw [claimTask_tasks] at hr
  rcases List.mem_map.mp hr with ⟨r0, hr0, rfl⟩
  have hr0id : r0.id = tid := by
    by_cases hg : (r0.id == tid && r0.status == TaskStatus.pending) = true
    · simp only [Bool.and_eq_true, beq_iff_eq] at hg
      exact hg.1
    · have hfix : claimUpd tid aid term now r0 = r0 := by
        unfold claimUpd
        exact if_neg hg
      rw [hfix] at hrid
      exact hrid
  have hr0q : r0 = q := eq_of_nodup_key hnd hr0 hqmem (by rw [hr0id, hqpred.1])
  have hg : (r0.id == tid && r0.status == TaskStatus.pending) = true := by
    simp only [Bool.and_eq_true, beq_iff_eq]
    exact ⟨hr0id, by rw [hr0q]; exact hqpred.2⟩
  unfold claimUpd
  rw [if_pos hg]
  exact ⟨rfl, rfl, rfl, rfl⟩

/-- C1 witness: a two-attempt race on a single pending task; the first
attempt succeeds and the second fails. -/
theorem claim_task_unique_witness :
    (((claimTask
        { tasks := [{ id := "t1", title := "a", status := .pending : TaskRow }] :
          DBState } "t1" "a1" 0 5).2 = true ↔
      pendingMatched
        { tasks := [{ id := "t1", title := "a", status := .pending : TaskRow }] :
          DBState } "t1" = 1) ∧
     (claimAttempts "t1"
        { tasks := [{ id := "t1", title := "a", status := .pending : TaskRow }] :
          DBState } [("a1", 0, 5), ("a2", 0, 6)]).2 ≤ 1) ∧
    (claimAttempts "t1"
        { tasks := [{ id := "t1", title := "a", status := .pending : TaskRow }] :
          DBState } [("a1", 0, 5), ("a2", 0, 6)]).2 = 1 := by
  have h := claim_task_unique
    { tasks := [{ id := "t1", title := "a", status := .pending : TaskRow }] :
      DBState } "t1" "a1" 0 5 [("a1", 0, 5), ("a2", 0, 6)] (by decide)
  exact ⟨⟨h.1, h.2.1⟩, by decide⟩

/-! ## Dependency-gated selection: the collapsed error path

`models.py`'s `Task` dataclass has no `depends_on` field, so
`Database._dependencies_met` raises `AttributeError` on every call and the
scan of `get_next_pending_task` errors whenever a pending row exists. -/

/-- The scan never accepts a row: it yields `None` on an empty pending list
and propagates `AttributeError` otherwise. -/
theorem firstDepMet_never_some (st : DBState) :
    ∀ l : List TaskRow, firstDepMet st l = Except.ok none ∨
      firstDepMet st l = Except.error attrError
  | [] => Or.inl rfl
  | _ :: _ => Or.inr rfl

theorem claimNextTask_of_sel_none {st : DBState} {aid : String} {now : Int}
    (h : getNextPendingTask st = Except.ok none) :
    claimNextTask st aid now = Except.ok (st, none) := by
  unfold claimNextTask
  rw [h]

theorem claimNextTask_of_sel_error {st : DBState} {aid : String} {now : Int}
    {e : String} (h : getNextPendingTask st = Except.error e) :
    claimNextTask st aid now = Except.error e := by
  unfold claimNextTask
  rw [h]

/-- C2: the claimed skipping behaviour does not exist in the code:
`get_next_pending_task` returns a value only when there is no pending row at
all (then `None`), and raises `AttributeError` otherwise, because the `Task`
dataclass has no `depends_on` attribute; consequently `claim_next_task`
either returns no task or propagates the exception, and in the claim's own
scenario (an unmet-dependency task alongside a claimable one) it raises
instead of returning the claimable task. -/
theorem dependency_gating_crashes :
    (∀ st : DBState,
      (getNextPendingTask st = Except.ok none ∧
        st.tasks.filter (fun t => t.status == TaskStatus.pending) = []) ∨
      getNextPendingTask st = Except.error attrError) ∧
    (∀ (st : DBState) (aid : String) (now : Int),
      claimNextTask st aid now = Except.ok (st, none) ∨
      claimNextTask st aid now = Except.error attrError) ∧
    claimNextTask
      { tasks := [{ id := "t1", title := "a", status := .done : TaskRow },
                  { id := "t2", title := "b", status := .pending,
                    priority := 5, depends_on := ["t1"] : TaskRow },
                  { id := "t3", title := "c", status := .pending,
                    priority := 9, depends_on := ["t4"] : TaskRow }] : DBState }
      "a1" 5 = Except.error attrError := by
  have hsel : ∀ st : DBState,
      getNextPendingTask st = Except.ok none ∨
      getNextPendingTask st = Except.error attrError := fun st =>
    firstDepMet_never_some st
      (orderBy taskLt (st.tasks.filter (fun t => t.status == TaskStatus.pending)))
  refine ⟨?_, ?_, rfl⟩
  · intro st
    rcases hsel st with h | h
    · left
      refine ⟨h, ?_⟩
      cases hord : orderBy taskLt
          (st.tasks.filter (fun t => t.status == TaskStatus.pending)) with
      | nil =>
          have hperm := perm_orderBy taskLt
            (st.tasks.filter (fun t => t.status == TaskStatus.pending))
          rw [hord] at hperm
          exact hperm.symm.eq_nil
      | cons r rest =>
          exfalso
          have herr : getNextPendingTask st = Except.error attrError := by
            unfold getNextPendingTask
            rw [hord]
            rfl
          rw [herr] at h
          cases h
    · exact Or.inr h
  · intro st aid now
    rcases hsel st with h | h
    · exact Or.inl (claimNextTask_of_sel_none h)
    · exact Or.inr (claimNextTask_of_sel_error h)

/-- C4: with pending tasks `A` (priority 7) and `B` (priority 3) both free of
dependencies, `claim_next_task` does not return `A` as claimed: the selection
raises `AttributeError` (missing `Task.depends_on`) before any row can be
claimed. -/
theorem priority_ordering_crashes :
    claimNextTask
      { tasks := [{ id := "b", title := "lo", status := .pending,
                    priority := 3, created_at := 0 : TaskRow },
                  { id := "a", title := "hi", status := .pending,
                    priority := 7, created_at := 1 : TaskRow }] : DBState }
      "a1" 9 = Except.error attrError ∧
    getNextPendingTask
      { tasks := [{ id := "b", title := "lo", status := .pending,
                    priority := 3, created_at := 0 : TaskRow },
                  { id := "a", title := "hi", status := .pending,
                    priority := 7, created_at := 1 : TaskRow }] : DBState } =
      Except.error attrError :=
  ⟨rfl, rfl⟩

/-! ## Leader-election lemmas -/

/-- A sequence of `try_become_leader` calls `(agent, now, lease)` applied in
order (each call is one immediate transaction). -/
def leaderCalls : DBState → List (String × Int × Int) → DBState
  | st, [] => st
  | st, (aid, now, lease) :: rest =>
      leaderCalls (tryBecomeLeader st aid now lease).1 rest

theorem tryBecomeLeader_term_mono (st : DBState) (aid : String)
    (now lease : Int) :
    getCurrentTerm st ≤ getCurrentTerm (tryBecomeLeader st aid now lease).1 := by
  cases hl : st.leader with
  | none =>
      simp only [tryBecomeLeader, hl, getCurrentTerm, logEvent]
      omega
  | some cur =>
      by_cases hv : now < cur.lease_expires_at
      · by_cases haid : (cur.agent_id == aid) = true
        · simp [tryBecomeLeader, hl, hv, haid, getCurrentTerm]
        · simp only [tryBecomeLeader, hl]
          rw [if_pos hv, if_neg haid]
      · simp only [tryBecomeLeader, hl, if_neg hv, casTakeover,
          beq_self_eq_true, if_true, getCurrentTerm, logEvent]
        omega

theorem leaderCalls_term_mono :
    ∀ (l : List (String × Int × Int)) (st : DBState),
      getCurrentTerm st ≤ getCurrentTerm (leaderCalls st l) := by
  intro l
  induction l with
  | nil => intro st; exact le_refl _
  | cons x rest ih =>
      intro st
      obtain ⟨aid, now, lease⟩ := x
      exact le_trans (tryBecomeLeader_term_mono st aid now lease)
        (ih (tryBecomeLeader st aid now lease).1)

/-- C3: the leader term never decreases across any sequence of
`try_become_leader` calls; a renewal by the current holder inside the lease
returns `(true, term)` with the term unchanged and only extends the lease;
the first successful call after expiry returns `(true, previous_term + 1)`;
and a takeover whose conditional `UPDATE` observes a stale term changes
nothing and returns `(false, 0)`. -/
theorem leader_term_protocol :
    (∀ (st : DBState) (calls : List (String × Int × Int)),
      getCurrentTerm st ≤ getCurrentTerm (leaderCalls st calls)) ∧
    (∀ (st : DBState) (cur : LeaderRow) (aid : String) (now lease : Int),
      st.leader = some cur → now < cur.lease_expires_at → cur.agent_id = aid →
      tryBecomeLeader st aid now lease =
        ({ st with leader := some { cur with lease_expires_at := now + lease } },
         true, cur.term)) ∧
    (∀ (st : DBState) (cur : LeaderRow) (aid : String) (now lease : Int),
      st.leader = some cur → cur.lease_expires_at < now →
      (tryBecomeLeader st aid now lease).2 = (true, cur.term + 1)) ∧
    (∀ (row : LeaderRow) (observed : Int) (aid : String) (now lease : Int),
      row.term ≠ observed → casTakeover row observed aid now lease =
        (row, false, 0)) := by
  refine ⟨fun st calls => leaderCalls_term_mono calls st, ?_, ?_, ?_⟩
  · intro st cur aid now lease hl hvalid haid
    simp only [tryBecomeLeader, hl]
    rw [if_pos hvalid, if_pos (by simp [haid])]
  · intro st cur aid now lease hl hexp
    simp only [tryBecomeLeader, hl]
    rw [if_neg (not_lt.mpr (le_of_lt hexp))]
    simp [casTakeover, logEvent]
  · intro row observed aid now lease hne
    simp only [casTakeover]
    rw [if_neg (by simp [hne])]

/-- C3 witness: renewal inside the lease keeps term 2; a call after expiry
yields term 3; a stale-term conditional update is a no-op. -/
theorem leader_term_protocol_witness :
    (getCurrentTerm { leader := some ⟨"a1", 2, 100, 50⟩ : DBState } ≤
      getCurrentTerm (leaderCalls { leader := some ⟨"a1", 2, 100, 50⟩ : DBState }
        [("a2", 150, 30), ("a1", 200, 30)])) ∧
    (tryBecomeLeader { leader := some ⟨"a1", 2, 100, 50⟩ : DBState } "a1" 60 30 =
      ({ leader := some ⟨"a1", 2, 90, 50⟩ : DBState }, true, 2)) ∧
    ((tryBecomeLeader { leader := some ⟨"a1", 2, 100, 50⟩ : DBState }
        "a2" 150 30).2 = (true, 3)) ∧
    (casTakeover ⟨"a1", 2, 100, 50⟩ 1 "a2" 150 30 = (⟨"a1", 2, 100, 50⟩, false, 0)) := by
  refine ⟨leader_term_protocol.1 _ _, ?_, ?_, ?_⟩
  · exact leader_term_protocol.2.1 _ ⟨"a1", 2, 100, 50⟩ "a1" 60 30 rfl
      (by decide) rfl
  · exact leader_term_protocol.2.2.1 _ ⟨"a1", 2, 100, 50⟩ "a2" 150 30 rfl
      (by decide)
  · exact leader_term_protocol.2.2.2 ⟨"a1", 2, 100, 50⟩ 1 "a2" 150 30 (by decide)

/-! ## Messages: broadcast read marker -/

/-- C8 counterexample: `a1` sends broadcast message 1; `a2` marks it read;
contrary to the claim, `get_messages(to_agent=a3, unread_only=True)` no
longer returns it for the different agent `a3`, because the single shared
`read_at` column is now set. -/
theorem broadcast_read_marker_counterexample :
    (getMessages
      (markMessagesRead
        { messages := [⟨1, "a1", none, "hello", "chat", 0, none⟩] : DBState }
        "a2" [1] 5).1
      (some "a3") true 50 = []) ∧
    ∀ m ∈ getMessages
      (markMessagesRead
        { messages := [⟨1, "a1", none, "hello", "chat", 0, none⟩] : DBState }
        "a2" [1] 5).1
      (some "a3") true 50, m.id ≠ 1 := by
  exact ⟨by decide, by decide⟩

/-- C8 (amended): the `read_at` marker of a broadcast message is a single
column shared by all recipients, not per recipient: once any agent marks a
broadcast message read, `get_messages(..., unread_only=True)` stops
returning it for every agent.  Hence any broadcast message still unread for
`a3` after the mark was not among the marked ids. -/
theorem broadcast_read_marker_global (st : DBState) (a2 : String)
    (ids : List Int) (now : Int) (a3 : String) (limit : Nat) (m : MessageRow)
    (hm : m ∈ getMessages (markMessagesRead st a2 ids now).1 (some a3) true limit)
    (hb : m.to_agent = none) : m.id ∉ ids := by
  intro hin
  have hm1 := List.take_subset limit _ hm
  rw [mem_orderBy] at hm1
  have hpred := List.of_mem_filter hm1
  have hmem := List.mem_of_mem_filter hm1
  simp only [Bool.and_eq_true, Bool.or_eq_true, beq_iff_eq, Bool.not_true,
    Bool.false_or] at hpred
  have hread : m.read_at = none := hpred.2
  have hmsgs : (markMessagesRead st a2 ids now).1.messages =
      st.messages.map (fun m =>
        if ids.contains m.id && (m.to_agent == some a2 || m.to_agent == none)
        then { m with read_at := some now } else m) := rfl
  rw [hmsgs] at hmem
  obtain ⟨m0, _, hfm0⟩ := List.mem_map.mp hmem
  by_cases hg : (ids.contains m0.id &&
      (m0.to_agent == some a2 || m0.to_agent == none)) = true
  · rw [if_pos hg] at hfm0
    rw [← hfm0] at hread
    cases hread
  · rw [if_neg hg] at hfm0
    subst hfm0
    apply hg
    simp only [Bool.and_eq_true, Bool.or_eq_true, beq_iff_eq]
    exact ⟨by simpa using hin, Or.inr hb⟩

/-- C8 witness for the amended statement: a broadcast message not among the
marked ids is still delivered unread to `a3`, and the theorem applies. -/
theorem broadcast_read_marker_global_witness :
    ((⟨1, "a1", none, "hello", "chat", 0, none⟩ : MessageRow) ∈
      getMessages
        (markMessagesRead
          { messages := [⟨1, "a1", none, "hello", "chat", 0, none⟩] : DBState }
          "a2" [7] 5).1
        (some "a3") true 50) ∧
    (1 : Int) ∉ [(7 : Int)] := by
  refine ⟨by decide, ?_⟩
  exact broadcast_read_marker_global
    { messages := [⟨1, "a1", none, "hello", "chat", 0, none⟩] : DBState }
    "a2" [7] 5 "a3" 50 ⟨1, "a1", none, "hello", "chat", 0, none⟩
    (by decide) rfl

/-! ## File locks under recovery -/

theorem updateAgentStatus_locks (st : DBState) (aid : String)
    (s : AgentStatus) : (updateAgentStatus st aid s).file_locks =
      st.file_locks := rfl

/-- The dead-agent sweep never touches the `file_locks` table. -/
theorem recoverDeadAgents_locks (alive : Nat → Bool) (now thr : Int)
    (st : DBState) :
    (recoverDeadAgents alive now thr st).1.file_locks = st.file_locks := by
  unfold recoverDeadAgents
  refine foldl_inv
    (fun (acc : DBState × List String) => acc.1.file_locks = st.file_locks)
    ?_ (st, []) rfl
  intro acc a _ hacc
  unfold recoverStep
  split
  · exact hacc
  · split
    · exact hacc
    · show (recoverAgent acc.1 a now).file_locks = st.file_locks
      unfold recoverAgent
      rw [logEvent_locks]
      refine foldl_inv (fun (s : DBState) => s.file_locks = st.file_locks) ?_ _ ?_
      · intro s t _ hs
        rw [abandonTask_locks]
        exact hs
      · exact hacc

/-- C9: contrary to the claim (and to the spec's data-model sentence), the
dead branch of `recover_dead_agents` does not remove the dead agent's file
locks: `release_agent_locks` exists in `db.py` but is never called.  The
sweep leaves `file_locks` unchanged in every state, and at the concrete
failing input the agent is marked dead and returned as recovered while its
lock row survives. -/
theorem recovery_keeps_file_locks :
    (∀ (alive : Nat → Bool) (now thr : Int) (st : DBState),
      (recoverDeadAgents alive now thr st).1.file_locks = st.file_locks) ∧
    ((recoverDeadAgents (fun _ => false) 1000 300
        { agents := [{ id := "a1", name := "n1", status := .active,
                       last_heartbeat_at := 0, pid := some 42 : AgentRow }],
          file_locks := [⟨"src/main.py", "a1", 0⟩] : DBState }).2 = ["a1"]) ∧
    ((recoverDeadAgents (fun _ => false) 1000 300
        { agents := [{ id := "a1", name := "n1", status := .active,
                       last_heartbeat_at := 0, pid := some 42 : AgentRow }],
          file_locks := [⟨"src/main.py", "a1", 0⟩] : DBState }).1.agents.map
        AgentRow.status = [.dead]) ∧
    ((recoverDeadAgents (fun _ => false) 1000 300
        { agents := [{ id := "a1", name := "n1", status := .active,
                       last_heartbeat_at := 0, pid := some 42 : AgentRow }],
          file_locks := [⟨"src/main.py", "a1", 0⟩] : DBState }).1.file_locks =
      [⟨"src/main.py", "a1", 0⟩]) :=
  ⟨recoverDeadAgents_locks, by decide, by decide, by decide⟩

/-! ## Liveness safety: infrastructure for the dead-agent sweep -/

theorem abandonUpd_keeps_id (tid reason : String) (now : Int) (t : TaskRow) :
    (abandonUpd tid reason now t).id = t.id := by
  unfold abandonUpd
  split <;> rfl

/-- A row with a different id survives `abandonTask` unchanged. -/
theorem abandonTask_preserves_ne {s : DBState} {tid reason : String} {now : Int}
    {t : TaskRow} (ht : t ∈ s.tasks) (hne : t.id ≠ tid) :
    t ∈ (abandonTask s tid reason now).1.tasks := by
  rw [abandonTask_tasks]
  have hfix : abandonUpd tid reason now t = t := by
    unfold abandonUpd
    rw [if_neg]
    simp only [Bool.and_eq_true, beq_iff_eq, not_and]
    exact fun hc => absurd hc hne
  have := List.mem_map_of_mem (abandonUpd tid reason now) ht
  rwa [hfix] at this

theorem abandonTask_events_mono {s : DBState} {tid reason : String} {now : Int}
    {e : EventRow} (he : e ∈ s.events) :
    e ∈ (abandonTask s tid reason now).1.events := by
  unfold abandonTask logEvent
  dsimp only
  split
  · exact List.mem_append_left _ he
  · exact he

/-- Pointwise id-preserving maps preserve key-injectivity of the table. -/
theorem injOn_id_map {l : List TaskRow} {f : TaskRow → TaskRow}
    (hf : ∀ t, (f t).id = t.id)
    (h : ∀ t1 ∈ l, ∀ t2 ∈ l, t1.id = t2.id → t1 = t2) :
    ∀ t1 ∈ l.map f, ∀ t2 ∈ l.map f, t1.id = t2.id → t1 = t2 := by
  intro t1 h1 t2 h2 hid
  rcases List.mem_map.mp h1 with ⟨s1, hs1, rfl⟩
  rcases List.mem_map.mp h2 with ⟨s2, hs2, rfl⟩
  rw [hf s1, hf s2] at hid
  rw [h s1 hs1 s2 hs2 hid]

/-- Membership characterization of `get_all_tasks(status=claimed,
claimed_by=aid)`. -/
theorem mem_getAllTasksBy_claimed {s : DBState} {aid : String} {u : TaskRow}
    (hu : u ∈ getAllTasksBy s (some .claimed) (some aid)) :
    u ∈ s.tasks ∧ u.status = .claimed ∧ u.claimed_by = some aid := by
  unfold getAllTasksBy at hu
  rw [mem_orderBy] at hu
  have hpred := List.of_mem_filter hu
  simp only [Bool.and_eq_true, beq_iff_eq] at hpred
  exact ⟨List.mem_of_mem_filter hu, hpred.1, hpred.2⟩

/-- The invariant carried through the dead-agent sweep for an unresponsive
agent `a`: `a`'s row is intact and unique for its id, `a` has not been
recovered, `a`'s claimed tasks are intact, and task ids remain a key. -/
def unrespInv (st : DBState) (a : AgentRow) (acc : DBState × List String) : Prop :=
  (∀ b ∈ acc.1.agents, b.id = a.id → b = a) ∧
  a ∈ acc.1.agents ∧
  a.id ∉ acc.2 ∧
  (∀ t ∈ st.tasks, t.status = .claimed → t.claimed_by = some a.id →
    t ∈ acc.1.tasks) ∧
  (∀ t1 ∈ acc.1.tasks, ∀ t2 ∈ acc.1.tasks, t1.id = t2.id → t1 = t2)

theorem unrespInv_step {st : DBState} {a : AgentRow} {alive : Nat → Bool}
    {now thr : Int} {b : AgentRow}
    (hba : b ≠ a → b.id ≠ a.id)
    (hpa : pidAlive alive a.pid = true)
    {acc : DBState × List String} (hacc : unrespInv st a acc) :
    unrespInv st a (recoverStep alive now thr acc b) := by
  obtain ⟨hexact, hmem, hrec, htasksA, hinj⟩ := hacc
  unfold recoverStep
  by_cases hfresh : now - thr ≤ b.last_heartbeat_at
  · rw [if_pos hfresh]
    exact ⟨hexact, hmem, hrec, htasksA, hinj⟩
  · rw [if_neg hfresh]
    by_cases halv : pidAlive alive b.pid = true
    · rw [if_pos halv]
      exact ⟨hexact, hmem, hrec, htasksA, hinj⟩
    · rw [if_neg halv]
      have hbna : b ≠ a := fun hc => halv (hc ▸ hpa)
      have hbid : b.id ≠ a.id := hba hbna
      have haid : a.id ≠ b.id := fun hc => hbid hc.symm
      -- the agent map of `updateAgentStatus acc.1 b.id dead`
      have hga : (if (a.id == b.id) = true
          then { a with status := AgentStatus.dead } else a) = a :=
        if_neg (by simp [haid])
      -- the inner abandon fold does not change the agents table
      have hag : ∀ (l : List TaskRow) (s : DBState),
          (l.foldl (fun s t =>
            (abandonTask s t.id ("Agent " ++ b.name ++ " died") now).1) s).agents
            = s.agents := by
        intro l
        induction l with
        | nil => intro s; rfl
        | cons u us ih =>
            intro s
            rw [List.foldl_cons, ih, abandonTask_agents]
      refine ⟨?_, ?_, ?_, ?_, ?_⟩
      · -- every agent row with a's id is still a's row
        intro b' hb' hb'id
        show b' = a
        rw [show (recoverAgent acc.1 b now).agents =
            (updateAgentStatus acc.1 b.id .dead).agents from by
          unfold recoverAgent
          rw [logEvent_agents, hag]] at hb'
        rcases List.mem_map.mp hb' with ⟨b0, hb0, rfl⟩
        have hb0id : b0.id = a.id := by
          by_cases hg : (b0.id == b.id) = true
          · rw [if_pos hg] at hb'id
            exact hb'id
          · rw [if_neg hg] at hb'id
            exact hb'id
        have hb0a : b0 = a := hexact b0 hb0 hb0id
        rw [hb0a, hga]
      · -- a's row is intact
        show a ∈ (recoverAgent acc.1 b now).agents
        rw [show (recoverAgent acc.1 b now).agents =
            (updateAgentStatus acc.1 b.id .dead).agents from by
          unfold recoverAgent
          rw [logEvent_agents, hag]]
        exact List.mem_map.mpr ⟨a, hmem, hga⟩
      · -- a is not in the recovered list
        intro hc
        rcases List.mem_append.mp hc with h1 | h1
        · exact hrec h1
        · rw [List.mem_singleton] at h1
          exact hbid h1.symm
      · -- a's claimed tasks are intact
        intro t ht hc hca
        show t ∈ (recoverAgent acc.1 b now).tasks
        unfold recoverAgent
        rw [logEvent_tasks]
        refine foldl_inv (fun (s : DBState) => t ∈ s.tasks) ?_ _ (htasksA t ht hc hca)
        intro s u hu hs
        obtain ⟨humem, hust, hucb⟩ := mem_getAllTasksBy_claimed hu
        have htne : t ≠ u := by
          intro hc2
          rw [← hc2] at hucb
          rw [hca] at hucb
          injection hucb with h
          exact hbid h.symm
        have htid : t.id ≠ u.id := by
          intro hc2
          exact htne (hinj t (htasksA t ht hc hca) u humem hc2)
        exact abandonTask_preserves_ne hs htid
      · -- task ids remain a key
        show ∀ t1 ∈ (recoverAgent acc.1 b now).tasks, _
        unfold recoverAgent
        rw [logEvent_tasks]
        refine foldl_inv (fun (s : DBState) =>
          ∀ t1 ∈ s.tasks, ∀ t2 ∈ s.tasks, t1.id = t2.id → t1 = t2) ?_ _ hinj
        intro s u _ hs
        intro t1 h1 t2 h2
        rw [abandonTask_tasks] at h1 h2
        exact injOn_id_map (abandonUpd_keeps_id _ _ _) hs t1 h1 t2 h2

theorem recoverStep_events_mono {alive : Nat → Bool} {now thr : Int}
    {acc : DBState × List String} {b : AgentRow} {e : EventRow}
    (he : e ∈ acc.1.events) :
    e ∈ (recoverStep alive now thr acc b).1.events := by
  unfold recoverStep
  split
  · exact he
  · split
    · exact List.mem_append_left _ he
    · show e ∈ (recoverAgent acc.1 b now).events
      unfold recoverAgent logEvent
      apply List.mem_append_left
      refine foldl_inv (fun (s : DBState) => e ∈ s.events) ?_ _ he
      intro s u _ hs
      exact abandonTask_events_mono hs

/-- C5: An active agent whose heartbeat is stale but whose recorded PID is
still alive is flagged `agent_unresponsive` but NOT recovered: its row
survives unchanged (so it is not marked dead), its id is not in the returned
list, and its claimed tasks stay claimed (their rows survive unchanged). -/
theorem unresponsive_agent_not_recovered (alive : Nat → Bool) (now thr : Int)
    (st : DBState) (a : AgentRow) (p : Nat)
    (hand : (st.agents.map AgentRow.id).Nodup)
    (htnd : (st.tasks.map TaskRow.id).Nodup)
    (ha : a ∈ st.agents) (hact : a.status = .active)
    (hstale : a.last_heartbeat_at < now - thr)
    (hpid : a.pid = some p) (hp0 : p ≠ 0) (halive : alive p = true) :
    a ∈ (recoverDeadAgents alive now thr st).1.agents ∧
    (∀ b ∈ (recoverDeadAgents alive now thr st).1.agents, b.id = a.id → b = a) ∧
    a.id ∉ (recoverDeadAgents alive now thr st).2 ∧
    (∃ e ∈ (recoverDeadAgents alive now thr st).1.events,
      e.event_type = "agent_unresponsive" ∧ e.agent_id = some a.id) ∧
    (∀ t ∈ st.tasks, t.status = .claimed → t.claimed_by = some a.id →
      t ∈ (recoverDeadAgents alive now thr st).1.tasks) := by
  have hpa : pidAlive alive a.pid = true := by
    rw [hpid]
    simp [pidAlive, halive, hp0]
  have hba : ∀ b ∈ st.agents, b ≠ a → b.id ≠ a.id := by
    intro b hb hne hc
    exact hne (eq_of_nodup_key hand hb ha hc)
  have hsnapmem : a ∈ getAllAgentsByStatus st .active := by
    unfold getAllAgentsByStatus
    rw [mem_orderBy]
    exact List.mem_filter.mpr ⟨ha, by simp [hact]⟩
  have hsub : ∀ b ∈ getAllAgentsByStatus st .active, b ∈ st.agents := by
    intro b hb
    unfold getAllAgentsByStatus at hb
    rw [mem_orderBy] at hb
    exact List.mem_of_mem_filter hb
  obtain ⟨l1, l2, hsplit⟩ := List.append_of_mem hsnapmem
  have hsub1 : ∀ b ∈ l1, b ∈ st.agents := by
    intro b hb
    apply hsub
    rw [hsplit]
    exact List.mem_append_left _ hb
  have hsub2 : ∀ b ∈ l2, b ∈ st.agents := by
    intro b hb
    apply hsub
    rw [hsplit]
    exact List.mem_append_right _ (List.mem_cons_of_mem _ hb)
  have hinit : unrespInv st a (st, []) :=
    ⟨fun b hb hid => eq_of_nodup_key hand hb ha hid, ha, by simp,
     fun t ht _ _ => ht, fun t1 h1 t2 h2 hid => eq_of_nodup_key htnd h1 h2 hid⟩
  have hP1 : unrespInv st a (l1.foldl (recoverStep alive now thr) (st, [])) :=
    foldl_inv _ (fun acc b hb hacc =>
      unrespInv_step (fun hne => hba b (hsub1 b hb) hne) hpa hacc) _ hinit
  obtain ⟨m1, hm1⟩ : ∃ m1, l1.foldl (recoverStep alive now thr) (st, []) = m1 :=
    ⟨_, rfl⟩
  rw [hm1] at hP1
  have hstep : recoverStep alive now thr m1 a =
      (logEvent m1.1 "agent_unresponsive" (some a.id) none now, m1.2) := by
    unfold recoverStep
    rw [if_neg (not_le.mpr hstale), if_pos hpa]
  have hmid : unrespInv st a (recoverStep alive now thr m1 a) ∧
      (⟨now, "agent_unresponsive", some a.id, none⟩ : EventRow) ∈
        (recoverStep alive now thr m1 a).1.events := by
    rw [hstep]
    exact ⟨hP1, List.mem_append_right _ (List.mem_singleton.mpr rfl)⟩
  have hfinal : unrespInv st a
        (l2.foldl (recoverStep alive now thr) (recoverStep alive now thr m1 a)) ∧
      (⟨now, "agent_unresponsive", some a.id, none⟩ : EventRow) ∈
        (l2.foldl (recoverStep alive now thr)
          (recoverStep alive now thr m1 a)).1.events :=
    foldl_inv (fun acc => unrespInv st a acc ∧
        (⟨now, "agent_unresponsive", some a.id, none⟩ : EventRow) ∈ acc.1.events)
      (fun acc b hb hacc =>
        ⟨unrespInv_step (fun hne => hba b (hsub2 b hb) hne) hpa hacc.1,
         recoverStep_events_mono hacc.2⟩) _ hmid
  have hres : recoverDeadAgents alive now thr st =
      l2.foldl (recoverStep alive now thr) (recoverStep alive now thr m1 a) := by
    unfold recoverDeadAgents
    rw [hsplit, List.foldl_append, List.foldl_cons, hm1]
  rw [hres]
  obtain ⟨⟨hexact, hmem, hrec, htasks, _⟩, hev⟩ := hfinal
  exact ⟨hmem, hexact, hrec, ⟨_, hev, rfl, rfl⟩, htasks⟩

/-- C5 witness: a stale-heartbeat agent with a live PID keeps its row, is not
in the recovered list, and its claimed task stays. -/
theorem unresponsive_agent_not_recovered_witness :
    ({ id := "a1", name := "n", status := .active, last_heartbeat_at := 0,
       pid := some 42 : AgentRow } ∈
      (recoverDeadAgents (fun q => q == 42) 1000 300
        { agents := [{ id := "a1", name := "n", status := .active,
                       last_heartbeat_at := 0, pid := some 42 : AgentRow }],
          tasks := [{ id := "t1", title := "w", status := .claimed,
                      claimed_by := some "a1" : TaskRow }] : DBState }).1.agents) ∧
    ("a1" ∉
      (recoverDeadAgents (fun q => q == 42) 1000 300
        { agents := [{ id := "a1", name := "n", status := .active,
                       last_heartbeat_at := 0, pid := some 42 : AgentRow }],
          tasks := [{ id := "t1", title := "w", status := .claimed,
                      claimed_by := some "a1" : TaskRow }] : DBState }).2) ∧
    ({ id := "t1", title := "w", status := .claimed,
       claimed_by := some "a1" : TaskRow } ∈
      (recoverDeadAgents (fun q => q == 42) 1000 300
        { agents := [{ id := "a1", name := "n", status := .active,
                       last_heartbeat_at := 0, pid := some 42 : AgentRow }],
          tasks := [{ id := "t1", title := "w", status := .claimed,
                      claimed_by := some "a1" : TaskRow }] : DBState }).1.tasks) := by
  have h := unresponsive_agent_not_recovered (fun q => q == 42) 1000 300
    { agents := [{ id := "a1", name := "n", status := .active,
                   last_heartbeat_at := 0, pid := some 42 : AgentRow }],
      tasks := [{ id := "t1", title := "w", status := .claimed,
                  claimed_by := some "a1" : TaskRow }] : DBState }
    { id := "a1", name := "n", status := .active, last_heartbeat_at := 0,
      pid := some 42 : AgentRow }
    42 (by decide) (by decide) (by decide) (by decide) (by decide) rfl
    (by decide) (by decide)
  exact ⟨h.1, h.2.2.1, h.2.2.2.2 _ (by decide) (by decide) (by decide)⟩

end Aqua
